import Mathlib

/-!
Verification of the nchorder configuration codec, chord analysis and CDC
upload/stream logic, as a shallow embedding of the Python sources
(nchorder_tools/config.py, formats.py, cdc_client.py, hid.py).

Bytes are modelled as natural numbers; byte strings as List Nat.  Functions
that can raise in Python return Except String.  Machine arithmetic is Nat
with explicit truncation where the Python code packs fixed-width fields.
-/

namespace NChorder

/-! ## Byte-level helpers (struct.unpack / struct.pack little-endian) -/

/-- Read a 16-bit little-endian value at offset o, as struct.unpack of a
2-byte slice does (out-of-range reads give 0; callers guard lengths). -/
def u16at (d : List Nat) (o : Nat) : Nat :=
  d.getD o 0 + 256 * d.getD (o + 1) 0

/-- Read a 32-bit little-endian value at offset o. -/
def u32at (d : List Nat) (o : Nat) : Nat :=
  d.getD o 0 + 256 * d.getD (o + 1) 0 + 65536 * d.getD (o + 2) 0
    + 16777216 * d.getD (o + 3) 0

/-- struct.pack of a 16-bit little-endian value. -/
def u16le (v : Nat) : List Nat := [v % 256, v / 256 % 256]

/-- struct.pack of a 32-bit little-endian value. -/
def u32le (v : Nat) : List Nat :=
  [v % 256, v / 256 % 256, v / 65536 % 256, v / 16777216 % 256]

theorem getD_app_right (l1 l2 : List Nat) (j : Nat) :
    (l1 ++ l2).getD (l1.length + j) 0 = l2.getD j 0 := by
  induction l1 with
  | nil => simp
  | cons a t ih => simpa [List.getD, Nat.succ_add] using ih

theorem u16le_decode (v : Nat) (h : v < 65536) :
    v % 256 + 256 * (v / 256 % 256) = v := by
  omega

theorem u32le_decode (v : Nat) (h : v < 4294967296) :
    v % 256 + 256 * (v / 256 % 256) + 65536 * (v / 65536 % 256)
      + 16777216 * (v / 16777216 % 256) = v := by
  omega

/-! ## Data model (config.py) -/

/-- A single chord mapping (dataclass ChordEntry). -/
structure ChordEntry where
  chord : Nat
  hid_key : Nat
  modifier : Nat
  is_shifted : Bool := false
  is_multi : Bool := false
  multi_chars : List (Nat × Nat) := []
deriving DecidableEq, Repr

/-- Complete Twiddler configuration (dataclass TwiddlerConfig),
with the Python default field values. -/
structure TwiddlerConfig where
  version : Nat := 7
  sleep_timeout : Nat := 3720
  key_repeat_delay : Nat := 100
  mouse_accel : Nat := 10
  key_repeat : Bool := false
  direct_key : Bool := false
  joystick_left_click : Bool := true
  disable_bluetooth : Bool := false
  sticky_num : Bool := false
  sticky_shift : Bool := false
  haptic_feedback : Bool := false
  mouse_left_action : Nat := 0
  mouse_middle_action : Nat := 3
  mouse_right_action : Nat := 1
  chords : List ChordEntry := []
  strings : List (List (Nat × Nat)) := []
deriving DecidableEq, Repr

/-- TwiddlerConfig.get_chord: first entry whose full stored mask equals
the requested buttons value. -/
def TwiddlerConfig.get_chord (c : TwiddlerConfig) (buttons : Nat) : Option ChordEntry :=
  c.chords.find? (fun e => e.chord == buttons)

/-- TwiddlerConfig.find_unmapped with an explicit reference list: the
reference chords whose value is not among the entries' masks truncated
to 16 bits. -/
def TwiddlerConfig.find_unmapped (c : TwiddlerConfig) (reference_chords : List Nat) :
    List Nat :=
  reference_chords.filter (fun r => !(c.chords.any (fun e => e.chord % 65536 == r)))

/-- The seen dictionary of find_conflicts, keyed by 16-bit truncated mask;
first insertion wins, as in the Python dict usage. -/
def lookupSeen (bits : Nat) : List (Nat × ChordEntry) → Option ChordEntry
  | [] => none
  | (b, e) :: rest => if b == bits then some e else lookupSeen bits rest

/-- Loop body of TwiddlerConfig.find_conflicts. -/
def findConflictsAux (seen : List (Nat × ChordEntry)) :
    List ChordEntry → List (ChordEntry × ChordEntry)
  | [] => []
  | e :: rest =>
    match lookupSeen (e.chord % 65536) seen with
    | some orig => (orig, e) :: findConflictsAux seen rest
    | none => findConflictsAux ((e.chord % 65536, e) :: seen) rest

/-- TwiddlerConfig.find_conflicts. -/
def TwiddlerConfig.find_conflicts (c : TwiddlerConfig) :
    List (ChordEntry × ChordEntry) :=
  findConflictsAux [] c.chords

/-- Insertion into a sorted list of keys (used to model Python sorted()). -/
def insertSorted (x : Nat) : List Nat → List Nat
  | [] => [x]
  | y :: ys => if x ≤ y then x :: y :: ys else y :: insertSorted x ys

/-- Python sorted() on a list of distinct keys. -/
def sortNat (l : List Nat) : List Nat := l.foldr insertSorted []

/-- Dictionary lookup for the normalized-mask maps built by diff: the map
comprehension keeps the last entry for each truncated mask. -/
def mapLookup (chords : List ChordEntry) (k : Nat) : Option ChordEntry :=
  chords.reverse.find? (fun e => e.chord % 65536 == k)

/-- Result type of TwiddlerConfig.diff. -/
structure DiffResult where
  added : List ChordEntry
  removed : List ChordEntry
  changed : List (Nat × ChordEntry × ChordEntry)
  settings : List (String × Nat × Nat)
deriving DecidableEq, Repr

/-- TwiddlerConfig.diff.  Key sets are the distinct truncated masks; the
settings comparison covers exactly the attribute list of the source:
sleep_timeout, key_repeat_delay, mouse_accel. -/
def TwiddlerConfig.diff (a b : TwiddlerConfig) : DiffResult :=
  let selfKeys := (a.chords.map (fun e => e.chord % 65536)).dedup
  let otherKeys := (b.chords.map (fun e => e.chord % 65536)).dedup
  let addedKeys := sortNat (otherKeys.filter (fun k => !(selfKeys.contains k)))
  let removedKeys := sortNat (selfKeys.filter (fun k => !(otherKeys.contains k)))
  let commonKeys := sortNat (selfKeys.filter (fun k => otherKeys.contains k))
  { added := addedKeys.filterMap (mapLookup b.chords)
    removed := removedKeys.filterMap (mapLookup a.chords)
    changed := commonKeys.filterMap (fun k =>
      match mapLookup a.chords k, mapLookup b.chords k with
      | some s, some o =>
          if s.hid_key ≠ o.hid_key ∨ s.modifier ≠ o.modifier then some (k, s, o) else none
      | _, _ => none)
    settings :=
      (if a.sleep_timeout ≠ b.sleep_timeout then
        [("sleep_timeout", a.sleep_timeout, b.sleep_timeout)] else [])
      ++ (if a.key_repeat_delay ≠ b.key_repeat_delay then
        [("key_repeat_delay", a.key_repeat_delay, b.key_repeat_delay)] else [])
      ++ (if a.mouse_accel ≠ b.mouse_accel then
        [("mouse_accel", a.mouse_accel, b.mouse_accel)] else []) }

/-! ## Version detection (formats.py detect_version) -/

/-- detect_version: classify a config blob.  Raising in Python is an
error value here. -/
def detect_version (data : List Nat) : Except String Nat :=
  if data.length < 6 then .error "File too small"
  else if data.take 4 = [0, 0, 0, 0] ∧ (u16at data 4 = 0x0107 ∨ u16at data 4 = 0x0907) then
    .ok 7
  else if data.getD 0 0 = 4 then .ok 4
  else if data.getD 0 0 = 5 then .ok 5
  else .error "Unknown config format"

/-! ## v4 parser (formats.py ConfigV4._parse) -/

/-- v4 chord-record loop: 4-byte records, stop at the first incomplete
record (the Python break), skip records whose modifier byte is 0xFF. -/
def parseChordsV4 (data : List Nat) (offset : Nat) : Nat → List ChordEntry
  | 0 => []
  | count + 1 =>
    if data.length < offset + 4 then []
    else
      let m := data.getD (offset + 2) 0
      let rest := parseChordsV4 data (offset + 4) count
      if m == 0xFF then rest
      else
        { chord := u16at data offset
          hid_key := data.getD (offset + 3) 0
          modifier := m
          is_shifted := m &&& 2 != 0
          is_multi := false
          multi_chars := [] } :: rest

/-- ConfigV4._parse.  IndexError / struct.error / ValueError from the
Python code are error values. -/
def ConfigV4_parse (data : List Nat) : Except String TwiddlerConfig :=
  if data.length = 0 then .error "empty input"
  else if data.getD 0 0 ≠ 4 then .error "Expected v4"
  else if data.length < 14 then .error "truncated header"
  else
    .ok { version := 4
          sleep_timeout := u16at data 4
          mouse_left_action := u16at data 6
          mouse_middle_action := u16at data 8
          mouse_right_action := u16at data 10
          mouse_accel := data.getD 12 0
          key_repeat_delay := data.getD 13 0
          key_repeat := data.getD 1 0 &&& 0x01 != 0
          direct_key := data.getD 1 0 &&& 0x02 != 0
          joystick_left_click := data.getD 1 0 &&& 0x04 != 0
          disable_bluetooth := data.getD 1 0 &&& 0x08 != 0
          sticky_num := data.getD 1 0 &&& 0x10 != 0
          sticky_shift := data.getD 1 0 &&& 0x80 != 0
          haptic_feedback := false
          chords := parseChordsV4 data 14 (u16at data 2)
          strings := [] }

/-! ## v5 parser (formats.py ConfigV5._parse) -/

/-- v5 chord-record loop: every complete record becomes an entry; a
modifier byte of 0xFF marks a multi-char entry (hid_key is then a string
index), multi_chars is filled in later from the string table. -/
def parseChordsV5 (data : List Nat) (offset : Nat) : Nat → List ChordEntry
  | 0 => []
  | count + 1 =>
    if data.length < offset + 4 then []
    else
      let m := data.getD (offset + 2) 0
      { chord := u16at data offset
        hid_key := data.getD (offset + 3) 0
        modifier := m
        is_shifted := !(m == 0xFF) && (m &&& 2 != 0)
        is_multi := m == 0xFF
        multi_chars := [] } :: parseChordsV5 data (offset + 4) count

/-- The multi_indices list built while appending entries: (position in the
chord list, hid_key used as string index) for each multi entry, in order. -/
def multiIndicesAux (i : Nat) : List ChordEntry → List (Nat × Nat)
  | [] => []
  | e :: es =>
    if e.is_multi then (i, e.hid_key) :: multiIndicesAux (i + 1) es
    else multiIndicesAux (i + 1) es

def multiIndices (es : List ChordEntry) : List (Nat × Nat) :=
  multiIndicesAux 0 es

/-- Read the (mod, key) pairs of one length-prefixed string: str_len // 2 - 1
pairs starting 2 bytes past the string offset, keeping only pairs that fit
in the data (the Python loop appends nothing once past the end). -/
def readChars (data : List Nat) (so slen : Nat) : List (Nat × Nat) :=
  (List.range (slen / 2 - 1)).filterMap (fun i =>
    let co := so + 2 + 2 * i
    if co + 2 ≤ data.length then some (data.getD co 0, data.getD (co + 1) 0) else none)

/-- Replace the multi_chars of the entry at one index. -/
def setMulti : List ChordEntry → Nat → List (Nat × Nat) → List ChordEntry
  | [], _, _ => []
  | e :: es, 0, ch => { e with multi_chars := ch } :: es
  | e :: es, ci + 1, ch => e :: setMulti es ci ch

/-- Second pass of ConfigV5._parse: for each multi entry look its string
index up in the table of absolute offsets and store the decoded pairs.
A string offset equal to the last byte makes the 2-byte length read raise
struct.error in Python, an error value here. -/
def applyStrings (data : List Nat) (locs : List Nat) :
    List (Nat × Nat) → List ChordEntry → Except String (List ChordEntry)
  | [], entries => .ok entries
  | (ci, si) :: rest, entries =>
    if si < locs.length then
      if locs.getD si 0 < data.length then
        if locs.getD si 0 + 2 ≤ data.length then
          applyStrings data locs rest
            (setMulti entries ci
              (readChars data (locs.getD si 0) (u16at data (locs.getD si 0))))
        else .error "struct error: short length read"
      else applyStrings data locs rest entries
    else applyStrings data locs rest entries

/-- Header fields and flags shared by the success paths of ConfigV5._parse. -/
def mkV5Config (data : List Nat) (entries : List ChordEntry) : TwiddlerConfig :=
  { version := 5
    sleep_timeout := u16at data 4
    mouse_left_action := u16at data 6
    mouse_middle_action := u16at data 8
    mouse_right_action := u16at data 10
    mouse_accel := data.getD 12 0
    key_repeat_delay := data.getD 13 0
    key_repeat := data.getD 1 0 &&& 0x01 != 0
    direct_key := data.getD 1 0 &&& 0x02 != 0
    joystick_left_click := data.getD 1 0 &&& 0x04 != 0
    disable_bluetooth := data.getD 1 0 &&& 0x08 != 0
    sticky_num := data.getD 1 0 &&& 0x10 != 0
    sticky_shift := data.getD 1 0 &&& 0x80 != 0
    haptic_feedback := data.getD 15 0 &&& 0x01 != 0
    chords := entries
    strings := [] }

/-- Chord-list pipeline of ConfigV5._parse: the record loop, then the
string-table pass when there are multi entries.  The string-table location
loop reads 4-byte words while they fit; once a read no longer fits the
offset stops advancing, so it reads exactly min (max_index + 1)
(remaining / 4) words. -/
def v5Entries (data : List Nat) : Except String (List ChordEntry) :=
  let count := u16at data 2
  let entries := parseChordsV5 data 18 count
  let ms := multiIndices entries
  if ms.isEmpty then .ok entries
  else
    let maxIndex := (ms.map Prod.snd).foldl max 0
    let off0 := 18 + 4 * min count ((data.length - 18) / 4)
    let locs := (List.range (min (maxIndex + 1) ((data.length - off0) / 4))).map
      (fun i => u32at data (off0 + 4 * i))
    applyStrings data locs ms entries

/-- ConfigV5._parse.  The header reads end at data[15] (the flags_c
byte), so inputs of 16 or 17 bytes still parse, with an empty chord list:
the record loop starts at offset 18 and breaks immediately. -/
def ConfigV5_parse (data : List Nat) : Except String TwiddlerConfig :=
  if data.length = 0 then .error "empty input"
  else if data.getD 0 0 ≠ 5 then .error "Expected v5"
  else if data.length < 16 then .error "truncated header"
  else (v5Entries data).map (mkV5Config data)

/-! ## v7 parser and serializer (formats.py ConfigV7) -/

/-- v7 chord-record loop: 8-byte records (mask:32, modifier:16, key:16),
stop at the first incomplete record. -/
def parseChordsV7 (data : List Nat) (offset : Nat) : Nat → List ChordEntry
  | 0 => []
  | count + 1 =>
    if data.length < offset + 8 then []
    else
      { chord := u32at data offset
        hid_key := u16at data (offset + 6)
        modifier := u16at data (offset + 4)
        is_shifted := u16at data (offset + 4) == 0x0220 || u16at data (offset + 4) == 0x2002
        is_multi := u16at data (offset + 4) == 0x02FF
        multi_chars := [] } :: parseChordsV7 data (offset + 8) count

/-- ConfigV7._parse.  The header reads reach byte 0x4B, so any input of
fewer than 76 bytes raises struct.error in Python after the marker check. -/
def ConfigV7_parse (data : List Nat) : Except String TwiddlerConfig :=
  if data.length < 6 then .error "truncated header"
  else if u16at data 4 ≠ 0x0107 ∧ u16at data 4 ≠ 0x0907 then .error "Expected v7"
  else if data.length < 76 then .error "truncated header"
  else
    .ok { version := 7
          sleep_timeout := u16at data 10
          key_repeat_delay := u16at data 12
          mouse_left_action := u32at data 0x40
          mouse_middle_action := u32at data 0x44
          mouse_right_action := u32at data 0x48
          chords := parseChordsV7 data 128 (u16at data 8) }

/-- ConfigV7._build modifier canonicalization: preserve a modifier the
codec does not model, otherwise re-derive it from the is_multi and
is_shifted flags. -/
def encodeModV7 (e : ChordEntry) : Nat :=
  if e.modifier ≠ 0 ∧ e.modifier ≠ 0x0002 ∧ e.modifier ≠ 0x0220 ∧ e.modifier ≠ 0x02FF then
    e.modifier
  else if e.is_multi then 0x02FF
  else if e.is_shifted then 0x0220
  else 0x0002

/-- One 8-byte v7 chord record. -/
def encodeEntryV7 (e : ChordEntry) : List Nat :=
  u32le e.chord ++ u16le (encodeModV7 e) ++ u16le e.hid_key

def encodeChordsV7 : List ChordEntry → List Nat
  | [] => []
  | e :: es => encodeEntryV7 e ++ encodeChordsV7 es

/-- The chord index table at 0x60: sequential indices for the first
min 32 n chords, the rest of the 32 bytes stay zero. -/
def idxTableV7 (n : Nat) : List Nat :=
  (List.range 32).map (fun i => if i < min 32 n then i else 0)

/-- The 128-byte v7 header written by ConfigV7._build, written out as one
literal so each byte sits at its documented pack_into offset (unwritten
bytes are the bytearray zeros): reserved at 0x00, marker 0x0907 at 0x04,
0x0020 at 0x06, chord count at 0x08, sleep timeout at 0x0A, key repeat
delay at 0x0C (16-bit little-endian each), zeros up to 0x3F, the three
32-bit little-endian mouse actions at 0x40, 0x44, 0x48, the constant 2 at
0x4C, accel parameters at 0x50, zeros up to 0x5F, index table at 0x60. -/
def headerV7 (c : TwiddlerConfig) : List Nat :=
  [0, 0, 0, 0,
   0x07, 0x09,
   0x20, 0x00,
   c.chords.length % 256, c.chords.length / 256 % 256,
   c.sleep_timeout % 256, c.sleep_timeout / 256 % 256,
   c.key_repeat_delay % 256, c.key_repeat_delay / 256 % 256,
   0, 0, 0, 0, 0, 0, 0, 0, 0, 0, 0, 0, 0, 0, 0, 0, 0, 0, 0, 0, 0, 0, 0, 0, 0, 0, 0, 0, 0, 0, 0, 0, 0, 0, 0, 0, 0, 0, 0, 0, 0, 0, 0, 0, 0, 0, 0, 0, 0, 0,
   c.mouse_left_action % 256, c.mouse_left_action / 256 % 256,
   c.mouse_left_action / 65536 % 256, c.mouse_left_action / 16777216 % 256,
   c.mouse_middle_action % 256, c.mouse_middle_action / 256 % 256,
   c.mouse_middle_action / 65536 % 256, c.mouse_middle_action / 16777216 % 256,
   c.mouse_right_action % 256, c.mouse_right_action / 256 % 256,
   c.mouse_right_action / 65536 % 256, c.mouse_right_action / 16777216 % 256,
   2, 0, 0, 0,
   c.mouse_accel % 256, 0x0B, 0x09, 0x09,
   0, 0, 0, 0, 0, 0, 0, 0, 0, 0, 0, 0]
  ++ idxTableV7 c.chords.length

/-- ConfigV7._build: header followed by one 8-byte record per chord. -/
def ConfigV7_build (c : TwiddlerConfig) : List Nat :=
  headerV7 c ++ encodeChordsV7 c.chords

/-- Well-formedness of one entry: field values fit the v7 record widths
(struct.pack would raise otherwise) and the cached is_shifted and is_multi
flags agree with the modifier, as every parse of this codec produces them. -/
def EntryWF (e : ChordEntry) : Prop :=
  e.chord < 4294967296 ∧ e.hid_key < 65536 ∧ e.modifier < 65536 ∧
  (e.is_shifted = true ↔ (e.modifier = 0x0220 ∨ e.modifier = 0x2002)) ∧
  (e.is_multi = true ↔ e.modifier = 0x02FF)

instance (e : ChordEntry) : Decidable (EntryWF e) := by
  unfold EntryWF; infer_instance

/-- Well-formedness of a config for the v7 serializer: every scalar fits
its header field and every entry is well-formed. -/
def ConfigWF (c : TwiddlerConfig) : Prop :=
  c.chords.length < 65536 ∧ c.sleep_timeout < 65536 ∧ c.key_repeat_delay < 65536 ∧
  c.mouse_accel < 256 ∧
  c.mouse_left_action < 4294967296 ∧ c.mouse_middle_action < 4294967296 ∧
  c.mouse_right_action < 4294967296 ∧
  ∀ e ∈ c.chords, EntryWF e

instance (c : TwiddlerConfig) : Decidable (ConfigWF c) := by
  unfold ConfigWF; infer_instance

/-! ## Streaming reader (cdc_client.py TouchFrame and _stream_loop) -/

def STREAM_SYNC : Nat := 0xAA
def TOUCH_FRAME_SIZE : Nat := 71

structure BarTouch where
  pos : Nat
  size : Nat
deriving DecidableEq, Repr

structure TouchFrame where
  thumb_x : Nat
  thumb_y : Nat
  thumb_size : Nat
  bar0 : List BarTouch
  bar1 : List BarTouch
  bar2 : List BarTouch
  buttons : Nat
  raw_values : List Nat
deriving DecidableEq, Repr

/-- The 34 values struct.unpack produces from a 71-byte frame body:
33 u16 fields then one u32 button mask. -/
def frameValues (data : List Nat) : List Nat :=
  (List.range 33).map (fun i => u16at data (1 + 2 * i)) ++ [u32at data 67]

/-- parse_bar: up to five (pos, size) sub-touches, keeping those whose
position is not the 0xFFFF no-touch marker. -/
def parseBar (values : List Nat) (start : Nat) : List BarTouch :=
  (List.range 5).filterMap (fun i =>
    let pos := values.getD (start + 2 * i) 0
    if pos ≠ 0xFFFF then some { pos := pos, size := values.getD (start + 2 * i + 1) 0 }
    else none)

/-- TouchFrame.from_bytes: length and sync checks, then fixed-width
little-endian decoding. -/
def TouchFrame_from_bytes (data : List Nat) : Except String TouchFrame :=
  if data.length ≠ TOUCH_FRAME_SIZE then .error "bad frame length"
  else if data.getD 0 0 ≠ STREAM_SYNC then .error "invalid sync byte"
  else
    let values := frameValues data
    .ok { thumb_x := values.getD 0 0
          thumb_y := values.getD 1 0
          thumb_size := values.getD 2 0
          bar0 := parseBar values 3
          bar1 := parseBar values 13
          bar2 := parseBar values 23
          buttons := values.getD 33 0
          raw_values := values }

/-- Inner while loop of _stream_loop over an accumulated buffer: deliver
decoded frames and return the unconsumed remainder.  Every iteration
discards at least one byte, so the buffer length is enough fuel; fuel 0 is
only reached with an empty buffer, where the loop also stops. -/
def processBufferAux : Nat → List Nat → List TouchFrame × List Nat
  | 0, buf => ([], buf)
  | fuel + 1, buf =>
    if TOUCH_FRAME_SIZE ≤ buf.length then
      match buf.findIdx? (fun b => b == STREAM_SYNC) with
      | none => ([], [])
      | some 0 =>
        let r := processBufferAux fuel (buf.drop TOUCH_FRAME_SIZE)
        match TouchFrame_from_bytes (buf.take TOUCH_FRAME_SIZE) with
        | .ok f => (f :: r.1, r.2)
        | .error _ => r
      | some (i + 1) => processBufferAux fuel (buf.drop (i + 1))
    else ([], buf)

/-- One pass of the _stream_loop frame slicing over a buffer. -/
def processBuffer (buf : List Nat) : List TouchFrame × List Nat :=
  processBufferAux buf.length buf

/-! ## Chunked upload (cdc_client.py NChorderDevice.upload_config)

The device at the far end of _send_command is modelled as a function from
the number of commands already sent to the optional reply bytes; None
models a timeout, an I/O error or a closed port.  upload_config returns
the Python boolean result together with the list of (opcode, payload)
commands it wrote, in order. -/

def GET_VERSION : Nat := 0x01
def SAVE_FLASH : Nat := 0x07
def UPLOAD_START : Nat := 0x12
def UPLOAD_DATA : Nat := 0x13
def UPLOAD_COMMIT : Nat := 0x14
def UPLOAD_ABORT : Nat := 0x15
def ACK : Nat := 0x06
def NAK : Nat := 0x15

/-- The ACK test used after every upload step: a reply is accepted exactly
when it is present, non-empty and its first byte is ACK. -/
def respIsAck : Option (List Nat) → Bool
  | some (b :: _) => b == ACK
  | _ => false

/-- config_data[offset:offset+chunk_size] slices of the upload loop.
chunk_size 0 would loop forever in Python; callers use the default 60. -/
def chunksOfAux : Nat → Nat → List Nat → List (List Nat)
  | 0, _, _ => []
  | _, 0, _ => []
  | _ + 1, _, [] => []
  | fuel + 1, cs, d => d.take cs :: chunksOfAux fuel cs (d.drop cs)

def chunksOf (cs : Nat) (data : List Nat) : List (List Nat) :=
  chunksOfAux data.length cs data

/-- The UPLOAD_DATA loop: n is the number of commands sent so far; each
chunk must be ACKed, the first refused or unanswered chunk sends a single
UPLOAD_ABORT and fails the upload. -/
def uploadDataRun (dev : Nat → Option (List Nat)) (n : Nat) :
    List (List Nat) → Bool × List (Nat × List Nat)
  | [] => (true, [])
  | ch :: rest =>
    if respIsAck (dev n) then
      let r := uploadDataRun dev (n + 1) rest
      (r.1, (UPLOAD_DATA, ch) :: r.2)
    else (false, [(UPLOAD_DATA, ch), (UPLOAD_ABORT, [])])

/-- upload_config: size gate, UPLOAD_START, the chunk loop, UPLOAD_COMMIT,
then optionally SAVE_FLASH.  Result is (returned boolean, commands sent). -/
def upload_config (dev : Nat → Option (List Nat)) (config_data : List Nat)
    (chunk_size : Nat) (save_to_flash : Bool) : Bool × List (Nat × List Nat) :=
  if config_data.length = 0 ∨ 4096 < config_data.length then (false, [])
  else
    let startSend : Nat × List Nat := (UPLOAD_START, u16le config_data.length)
    if respIsAck (dev 0) then
      let chunks := chunksOf chunk_size config_data
      let r := uploadDataRun dev 1 chunks
      if r.1 then
        let n := 1 + chunks.length
        if respIsAck (dev n) then
          if save_to_flash then
            (respIsAck (dev (n + 1)),
              startSend :: r.2 ++ [(UPLOAD_COMMIT, []), (SAVE_FLASH, [])])
          else (true, startSend :: r.2 ++ [(UPLOAD_COMMIT, [])])
        else (false, startSend :: r.2 ++ [(UPLOAD_COMMIT, [])])
      else (false, startSend :: r.2)
    else (false, [startSend])

/-- How many commands with a given opcode a trace contains. -/
def countCmd (cmd : Nat) (t : List (Nat × List Nat)) : Nat :=
  (t.filter (fun p => p.1 == cmd)).length

/-! ## Common chord generator (hid.py generate_common_chords)

BUTTON_BITS: thumb N, A, C, S at bits 0, 4, 8, 12; finger row r column
c (c = 1 for L, 2 for M, 3 for R) at bit (r - 1) * 4 + c. -/

def fingerBit (r c : Nat) : Nat := (r - 1) * 4 + c

def thumbBits : List Nat := [0, 4, 8, 12]
def fingerRows : List Nat := [1, 2, 3, 4]
def fingerCols : List Nat := [1, 2, 3]

/-- Single finger buttons: 12 chords. -/
def chordsSingle : List Nat :=
  fingerRows.flatMap (fun r => fingerCols.map (fun c => 2 ^ fingerBit r c))

/-- Two fingers on adjacent rows: rows (1,2), (2,3), (3,4), 9 column
combinations each. -/
def chordsTwoAdjacent : List Nat :=
  [1, 2, 3].flatMap (fun r1 => fingerCols.flatMap (fun c1 => fingerCols.map (fun c2 =>
    2 ^ fingerBit r1 c1 ||| 2 ^ fingerBit (r1 + 1) c2)))

/-- One thumb with one finger. -/
def chordsThumbSingle : List Nat :=
  thumbBits.flatMap (fun t => fingerRows.flatMap (fun r => fingerCols.map (fun c =>
    2 ^ t ||| 2 ^ fingerBit r c)))

/-- One thumb with two fingers on adjacent rows. -/
def chordsThumbTwoAdjacent : List Nat :=
  thumbBits.flatMap (fun t => [1, 2, 3].flatMap (fun r1 =>
    fingerCols.flatMap (fun c1 => fingerCols.map (fun c2 =>
      2 ^ t ||| 2 ^ fingerBit r1 c1 ||| 2 ^ fingerBit (r1 + 1) c2))))

/-- generate_common_chords: the four loop groups of the source, in order. -/
def generate_common_chords : List Nat :=
  chordsSingle ++ chordsTwoAdjacent ++ chordsThumbSingle ++ chordsThumbTwoAdjacent

/-! ## Specification-side definitions -/

/-- The spec's description of conflict reporting: walk entries in file
order; an entry preceded by one with the same 16-bit normalized mask is
reported as (first earlier entry with that mask, this entry), in the
order the duplicates are encountered. -/
def conflictsSpecAux (pre : List ChordEntry) :
    List ChordEntry → List (ChordEntry × ChordEntry)
  | [] => []
  | e :: rest =>
    match pre.find? (fun o => o.chord % 65536 == e.chord % 65536) with
    | some o => (o, e) :: conflictsSpecAux (pre ++ [e]) rest
    | none => conflictsSpecAux (pre ++ [e]) rest

def conflictsSpec (es : List ChordEntry) : List (ChordEntry × ChordEntry) :=
  conflictsSpecAux [] es

/-! ## Claim C3: version detection -/

theorem find?_snoc {α : Type} (l : List α) (e : α) (p : α → Bool) :
    (l ++ [e]).find? p = match l.find? p with
      | some x => some x
      | none => if p e then some e else none := by
  induction l with
  | nil => by_cases h : p e <;> simp [List.find?, h]
  | cons a t ih => by_cases h : p a <;> simp [List.find?, h, ih]

/-- C3: detect_version returns 7 exactly for inputs of at least 6 bytes
whose first four bytes are zero and whose 16-bit little-endian marker at
offset 4 is 0x0107 or 0x0907; it returns 4 resp. 5 exactly when that v7
condition fails and the first byte is 4 resp. 5; every other input,
including any input shorter than 6 bytes, yields a classification error. -/
theorem c3_detect_version_spec (data : List Nat) :
    (detect_version data = .ok 7 ↔
      6 ≤ data.length ∧ data.take 4 = [0, 0, 0, 0] ∧
        (u16at data 4 = 0x0107 ∨ u16at data 4 = 0x0907)) ∧
    (detect_version data = .ok 4 ↔
      6 ≤ data.length ∧ data.getD 0 0 = 4 ∧
        ¬(data.take 4 = [0, 0, 0, 0] ∧ (u16at data 4 = 0x0107 ∨ u16at data 4 = 0x0907))) ∧
    (detect_version data = .ok 5 ↔
      6 ≤ data.length ∧ data.getD 0 0 = 5 ∧
        ¬(data.take 4 = [0, 0, 0, 0] ∧ (u16at data 4 = 0x0107 ∨ u16at data 4 = 0x0907))) ∧
    ((∃ e, detect_version data = .error e) ↔
      data.length < 6 ∨
        (¬(data.take 4 = [0, 0, 0, 0] ∧ (u16at data 4 = 0x0107 ∨ u16at data 4 = 0x0907)) ∧
          data.getD 0 0 ≠ 4 ∧ data.getD 0 0 ≠ 5)) := by
  unfold detect_version
  split_ifs with h1 h2 h3 h4 <;>
    refine ⟨?_, ?_, ?_, ?_⟩ <;> simp_all

/-! ## Claim C4: conflict detection -/

theorem findConflictsAux_eq (rest : List ChordEntry) :
    ∀ (pre : List ChordEntry) (seen : List (Nat × ChordEntry)),
    (∀ bits, lookupSeen bits seen = pre.find? (fun o => o.chord % 65536 == bits)) →
    findConflictsAux seen rest = conflictsSpecAux pre rest := by
  induction rest with
  | nil => intro pre seen _; rfl
  | cons e rest ih =>
    intro pre seen h
    show (match lookupSeen (e.chord % 65536) seen with
      | some orig => (orig, e) :: findConflictsAux seen rest
      | none => findConflictsAux ((e.chord % 65536, e) :: seen) rest) = _
    rw [h (e.chord % 65536)]
    cases hf : pre.find? (fun o => o.chord % 65536 == e.chord % 65536) with
    | some o =>
      show (o, e) :: findConflictsAux seen rest
        = conflictsSpecAux pre (e :: rest)
      have h' : ∀ bits, lookupSeen bits seen
          = (pre ++ [e]).find? (fun o => o.chord % 65536 == bits) := by
        intro bits
        rw [find?_snoc, h bits]
        cases hpb : pre.find? (fun o => o.chord % 65536 == bits) with
        | some x => rfl
        | none =>
          by_cases hb : (e.chord % 65536 == bits) = true
          · have hbe : e.chord % 65536 = bits := by simpa using hb
            rw [← hbe] at hpb
            rw [hpb] at hf
            cases hf
          · simp [hb]
      show _ = conflictsSpecAux pre (e :: rest)
      unfold conflictsSpecAux
      rw [hf]
      exact congrArg _ (ih (pre ++ [e]) seen h')
    | none =>
      have h' : ∀ bits, lookupSeen bits ((e.chord % 65536, e) :: seen)
          = (pre ++ [e]).find? (fun o => o.chord % 65536 == bits) := by
        intro bits
        rw [find?_snoc]
        simp only [lookupSeen]
        rw [h bits]
        by_cases hb : (e.chord % 65536 == bits) = true
        · have hbe : e.chord % 65536 = bits := by simpa using hb
          subst hbe
          rw [hf]
        · simp only [hb, if_false, Bool.false_eq_true]
          cases pre.find? (fun o => o.chord % 65536 == bits) <;> rfl
      show findConflictsAux ((e.chord % 65536, e) :: seen) rest
        = conflictsSpecAux pre (e :: rest)
      unfold conflictsSpecAux
      rw [hf]
      exact ih (pre ++ [e]) ((e.chord % 65536, e) :: seen) h'

def c4A : ChordEntry := { chord := 0x0002, hid_key := 0x04, modifier := 0x0002 }
def c4B : ChordEntry := { chord := 0x0002, hid_key := 0x05, modifier := 0x0002 }
def c4C : ChordEntry := { chord := 0x0004, hid_key := 0x06, modifier := 0x0002 }
def c4Low : ChordEntry := { chord := 0x0002, hid_key := 0x04, modifier := 0x0002 }
def c4High : ChordEntry := { chord := 0x10002, hid_key := 0x05, modifier := 0x0002 }

/-- C4: find_conflicts walks the entries in list order, keys them by the
mask truncated to 16 bits, and returns exactly the (first entry with a
mask, later entry with the same mask) pairs in encounter order; on
entries A(2, a-key), B(2, b-key), C(4, c-key) it returns exactly [(A, B)],
and masks 0x0002 and 0x10002 conflict. -/
theorem c4_find_conflicts_spec :
    (∀ c : TwiddlerConfig, c.find_conflicts = conflictsSpec c.chords) ∧
    ({ chords := [c4A, c4B, c4C] : TwiddlerConfig }.find_conflicts = [(c4A, c4B)]) ∧
    ({ chords := [c4Low, c4High] : TwiddlerConfig }.find_conflicts = [(c4Low, c4High)]) := by
  refine ⟨fun c => ?_, by decide, by decide⟩
  exact findConflictsAux_eq c.chords [] [] (fun bits => rfl)

/-! ## Claim C8: default unmapped-chord count -/

set_option maxRecDepth 8000 in
/-- C8: find_unmapped on a config with no chords, against the default
generated reference, returns the full reference: 195 distinct masks,
the concatenation of 12 single-finger, 27 two-adjacent-finger-row,
48 thumb-plus-finger and 108 thumb-plus-two-adjacent-finger chords. -/
theorem c8_unmapped_count :
    ({ chords := [] : TwiddlerConfig }.find_unmapped generate_common_chords
      = generate_common_chords) ∧
    generate_common_chords
      = chordsSingle ++ chordsTwoAdjacent ++ chordsThumbSingle ++ chordsThumbTwoAdjacent ∧
    generate_common_chords.length = 195 ∧
    chordsSingle.length = 12 ∧
    chordsTwoAdjacent.length = 27 ∧
    chordsThumbSingle.length = 48 ∧
    chordsThumbTwoAdjacent.length = 108 ∧
    generate_common_chords.Nodup := by
  refine ⟨?_, rfl, by decide, by decide, by decide, by decide, by decide, by decide⟩
  simp [TwiddlerConfig.find_unmapped, List.filter_eq_self]

/-! ## Claim C9: diff settings comparison -/

/-- C9 counterexample: two configs that differ only in a mouse-button
action and a boolean feature flag; diff reports no settings difference,
so the settings comparison does not cover those fields. -/
def c9a : TwiddlerConfig := {}
def c9b : TwiddlerConfig := { mouse_left_action := 2, haptic_feedback := true }

theorem c9_counterexample :
    c9a.mouse_left_action ≠ c9b.mouse_left_action ∧
    c9a.haptic_feedback ≠ c9b.haptic_feedback ∧
    (c9a.diff c9b).settings = [] := by
  refine ⟨by decide, by decide, ?_⟩
  rfl

/-- C9 (amended): diff(a, b).settings contains exactly the entries for
the fields among sleep_timeout, key_repeat_delay and mouse_accel whose
values differ between a and b; mouse-button actions and the boolean
feature flags are not compared. -/
theorem mem_ite_single {p : Prop} [Decidable p] (s t : String × Nat × Nat) :
    (s ∈ if p then [t] else []) ↔ p ∧ s = t := by
  split_ifs with h <;> simp [h]

theorem c9_diff_settings (a b : TwiddlerConfig) (nm : String) (x y : Nat) :
    (nm, x, y) ∈ (a.diff b).settings ↔
      ((nm = "sleep_timeout" ∧ x = a.sleep_timeout ∧ y = b.sleep_timeout ∧ x ≠ y) ∨
       (nm = "key_repeat_delay" ∧ x = a.key_repeat_delay ∧ y = b.key_repeat_delay ∧ x ≠ y) ∨
       (nm = "mouse_accel" ∧ x = a.mouse_accel ∧ y = b.mouse_accel ∧ x ≠ y)) := by
  have key : ∀ (s : String) (p q : Nat),
      (p ≠ q ∧ (nm, x, y) = (s, p, q)) ↔ (nm = s ∧ x = p ∧ y = q ∧ x ≠ y) := by
    intro s p q
    constructor
    · rintro ⟨hne, he⟩
      obtain ⟨h1, h2, h3⟩ : nm = s ∧ x = p ∧ y = q := by
        simpa [Prod.ext_iff] using he
      subst h1; subst h2; subst h3
      exact ⟨rfl, rfl, rfl, hne⟩
    · rintro ⟨h1, h2, h3, h4⟩
      subst h1; subst h2; subst h3
      exact ⟨h4, rfl⟩
  show (nm, x, y) ∈
      ((if a.sleep_timeout ≠ b.sleep_timeout then
        [("sleep_timeout", a.sleep_timeout, b.sleep_timeout)] else [])
      ++ (if a.key_repeat_delay ≠ b.key_repeat_delay then
        [("key_repeat_delay", a.key_repeat_delay, b.key_repeat_delay)] else [])
      ++ (if a.mouse_accel ≠ b.mouse_accel then
        [("mouse_accel", a.mouse_accel, b.mouse_accel)] else [])) ↔ _
  simp only [List.mem_append, mem_ite_single]
  rw [key, key, key, or_assoc]

/-! ## Claim C10: exact-mask lookup in get_chord -/

def c10High : ChordEntry := { chord := 0x10002, hid_key := 0x05, modifier := 0x0002 }
def c10Low : ChordEntry := { chord := 0x0002, hid_key := 0x04, modifier := 0x0002 }
def c10CfgHigh : TwiddlerConfig := { chords := [c10High] }
def c10CfgLow : TwiddlerConfig := { chords := [c10Low] }

/-- C10: get_chord matches on the full stored mask, not the 16-bit
normalized one: a returned entry's mask equals the requested buttons
exactly, and when no entry has that exact mask the lookup returns none.
The stored-mask-0x10002 entry is not found under buttons 0x0002, although
find_conflicts pairs the two masks, diff maps them to the same key
(no additions or removals either way) and find_unmapped counts 0x10002
as covering reference chord 0x0002. -/
theorem c10_get_chord_exact :
    (∀ (c : TwiddlerConfig) (b : Nat) (e : ChordEntry),
      c.get_chord b = some e → e.chord = b) ∧
    (∀ (c : TwiddlerConfig) (b : Nat),
      (∀ e ∈ c.chords, e.chord ≠ b) → c.get_chord b = none) ∧
    (c10High.chord % 65536 = 0x0002 ∧ c10CfgHigh.get_chord 0x0002 = none) ∧
    ({ chords := [c10Low, c10High] : TwiddlerConfig }.find_conflicts
      = [(c10Low, c10High)]) ∧
    ((c10CfgLow.diff c10CfgHigh).added = [] ∧ (c10CfgLow.diff c10CfgHigh).removed = []) ∧
    (c10CfgHigh.find_unmapped [0x0002] = []) := by
  refine ⟨?_, ?_, by decide, by decide, ⟨by decide, by decide⟩, by decide⟩
  · intro c b e hfind
    have := List.find?_some hfind
    simpa using this
  · intro c b hne
    refine List.find?_eq_none.mpr ?_
    intro e he
    simpa using hne e he

theorem c10_get_chord_exact_witness :
    c10Low.chord = 0x0002 ∧ c10CfgHigh.get_chord 0x0002 = none := by
  refine ⟨c10_get_chord_exact.1 c10CfgLow 0x0002 c10Low (by decide), ?_⟩
  exact c10_get_chord_exact.2.1 c10CfgHigh 0x0002 (by decide)

/-! ## Claim C2: upload abort on a refused chunk -/

theorem countCmd_cons (c : Nat) (p : Nat × List Nat) (t : List (Nat × List Nat)) :
    countCmd c (p :: t) = if p.1 == c then countCmd c t + 1 else countCmd c t := by
  by_cases h : (p.1 == c) = true <;> simp [countCmd, List.filter_cons, h]

theorem uploadDataRun_nak (dev : Nat → Option (List Nat)) :
    ∀ (k : Nat) (chunks : List (List Nat)) (n : Nat),
    (∀ i, i < k → respIsAck (dev (n + i)) = true) →
    respIsAck (dev (n + k)) = false →
    k < chunks.length →
    (uploadDataRun dev n chunks).1 = false ∧
    countCmd UPLOAD_ABORT (uploadDataRun dev n chunks).2 = 1 ∧
    countCmd UPLOAD_COMMIT (uploadDataRun dev n chunks).2 = 0 ∧
    countCmd UPLOAD_DATA (uploadDataRun dev n chunks).2 = k + 1 ∧
    countCmd UPLOAD_START (uploadDataRun dev n chunks).2 = 0 := by
  intro k
  induction k with
  | zero =>
    intro chunks n _ hnak hk
    match chunks, hk with
    | ch :: rest, _ =>
      have hn : respIsAck (dev n) = false := by simpa using hnak
      simp only [uploadDataRun, hn, Bool.false_eq_true, if_false]
      refine ⟨by simp, ?_, ?_, ?_, ?_⟩ <;>
        simp [countCmd, List.filter_cons, UPLOAD_DATA, UPLOAD_ABORT, UPLOAD_COMMIT,
          UPLOAD_START]
  | succ k ih =>
    intro chunks n hack hnak hk
    match chunks, hk with
    | ch :: rest, hk2 =>
      have hn : respIsAck (dev n) = true := by simpa using hack 0 (Nat.succ_pos k)
      have hack' : ∀ i, i < k → respIsAck (dev (n + 1 + i)) = true := by
        intro i hi
        have htail := hack (i + 1) (by omega)
        have harith : n + (i + 1) = n + 1 + i := by omega
        rwa [harith] at htail
      have hnak' : respIsAck (dev (n + 1 + k)) = false := by
        have harith : n + (k + 1) = n + 1 + k := by omega
        rwa [harith] at hnak
      have hk' : k < rest.length := by
        have hlt : k + 1 < rest.length + 1 := by simpa using hk2
        omega
      obtain ⟨ih1, ih2, ih3, ih4, ih5⟩ := ih rest (n + 1) hack' hnak' hk'
      simp only [uploadDataRun, hn, if_true]
      simp only [UPLOAD_DATA, UPLOAD_ABORT, UPLOAD_COMMIT, UPLOAD_START] at ih2 ih3 ih4 ih5 ⊢
      refine ⟨ih1, ?_, ?_, ?_, ?_⟩ <;>
        simp [countCmd_cons, ih2, ih3, ih4, ih5]

/-- C2: if the device ACKs UPLOAD_START and the first k UPLOAD_DATA chunks
but refuses (or does not answer) chunk k + 1 of a valid-sized payload,
upload_config returns failure, sends exactly one UPLOAD_ABORT and exactly
k + 1 UPLOAD_DATA commands, and never sends UPLOAD_COMMIT. -/
theorem c2_upload_abort (dev : Nat → Option (List Nat)) (data : List Nat)
    (cs : Nat) (sf : Bool) (k : Nat)
    (hpos : 1 ≤ data.length) (hmax : data.length ≤ 4096)
    (hstart : respIsAck (dev 0) = true)
    (hack : ∀ i, i < k → respIsAck (dev (1 + i)) = true)
    (hnak : respIsAck (dev (1 + k)) = false)
    (hk : k < (chunksOf cs data).length) :
    (upload_config dev data cs sf).1 = false ∧
    countCmd UPLOAD_ABORT (upload_config dev data cs sf).2 = 1 ∧
    countCmd UPLOAD_COMMIT (upload_config dev data cs sf).2 = 0 ∧
    countCmd UPLOAD_DATA (upload_config dev data cs sf).2 = k + 1 ∧
    countCmd UPLOAD_START (upload_config dev data cs sf).2 = 1 := by
  have hsz : ¬(data.length = 0 ∨ 4096 < data.length) := by omega
  obtain ⟨h1, h2, h3, h4, h5⟩ := uploadDataRun_nak dev k (chunksOf cs data) 1 hack hnak hk
  simp only [upload_config, if_neg hsz, hstart, if_true, h1, Bool.false_eq_true, if_false]
  simp only [UPLOAD_START, UPLOAD_DATA, UPLOAD_ABORT, UPLOAD_COMMIT] at h2 h3 h4 h5 ⊢
  refine ⟨by simp, ?_, ?_, ?_, ?_⟩ <;>
    simp [countCmd_cons, h2, h3, h4, h5]

def c2Dev : Nat → Option (List Nat) := fun n => if n = 3 then some [NAK] else some [ACK]
def c2Data : List Nat := List.replicate 180 7

set_option maxRecDepth 8000 in
theorem c2_upload_abort_witness :
    (upload_config c2Dev c2Data 60 true).1 = false ∧
    countCmd UPLOAD_ABORT (upload_config c2Dev c2Data 60 true).2 = 1 ∧
    countCmd UPLOAD_COMMIT (upload_config c2Dev c2Data 60 true).2 = 0 ∧
    countCmd UPLOAD_DATA (upload_config c2Dev c2Data 60 true).2 = 2 + 1 ∧
    countCmd UPLOAD_START (upload_config c2Dev c2Data 60 true).2 = 1 :=
  c2_upload_abort c2Dev c2Data 60 true 2 (by decide) (by decide) (by decide)
    (by decide) (by decide) (by decide)

/-! ## Claim C7: frame resynchronization -/

/-- The record built by TouchFrame.from_bytes once the checks pass. -/
def decodeFrame (data : List Nat) : TouchFrame :=
  let values := frameValues data
  { thumb_x := values.getD 0 0
    thumb_y := values.getD 1 0
    thumb_size := values.getD 2 0
    bar0 := parseBar values 3
    bar1 := parseBar values 13
    bar2 := parseBar values 23
    buttons := values.getD 33 0
    raw_values := values }

theorem from_bytes_ok (data : List Nat) (h71 : data.length = TOUCH_FRAME_SIZE)
    (hsync : data.getD 0 0 = STREAM_SYNC) :
    TouchFrame_from_bytes data = .ok (decodeFrame data) := by
  unfold TouchFrame_from_bytes
  rw [if_neg (by omega), if_neg (by omega)]
  rfl

/-- C7: feeding the stream-loop buffer logic two garbage bytes followed by
one valid 71-byte frame starting with the sync byte 0xAA delivers exactly
one frame, equal to decoding the 71 bytes directly with
TouchFrame.from_bytes, and consumes the whole buffer. -/
theorem c7_stream_resync (fr : List Nat) (h71 : fr.length = TOUCH_FRAME_SIZE)
    (hsync : fr.getD 0 0 = STREAM_SYNC) :
    TouchFrame_from_bytes fr = .ok (decodeFrame fr) ∧
    processBuffer (0x00 :: 0x00 :: fr) = ([decodeFrame fr], []) := by
  refine ⟨from_bytes_ok fr h71 hsync, ?_⟩
  obtain ⟨a, t, rfl⟩ : ∃ a t, fr = a :: t := by
    cases fr with
    | nil => simp [TOUCH_FRAME_SIZE] at h71
    | cons a t => exact ⟨a, t, rfl⟩
  have ha : a = 0xAA := by simpa [List.getD, STREAM_SYNC] using hsync
  subst ha
  have hlen : ((0x00 :: 0x00 :: 0xAA :: t : List Nat)).length = 73 := by
    have : (0xAA :: t : List Nat).length = 71 := h71
    simp at this ⊢
    omega
  rw [processBuffer, hlen]
  show processBufferAux (72 + 1) (0x00 :: 0x00 :: 0xAA :: t) = _
  rw [processBufferAux]
  have hge : TOUCH_FRAME_SIZE ≤ ((0x00 :: 0x00 :: 0xAA :: t : List Nat)).length := by
    rw [hlen]; decide
  rw [if_pos hge]
  have hidx : ((0x00 :: 0x00 :: 0xAA :: t : List Nat)).findIdx? (fun b => b == STREAM_SYNC)
      = some 2 := rfl
  rw [hidx]
  show processBufferAux 72 ((0x00 :: 0x00 :: 0xAA :: t : List Nat).drop 2) = _
  show processBufferAux (71 + 1) (0xAA :: t) = _
  rw [processBufferAux]
  have hge2 : TOUCH_FRAME_SIZE ≤ ((0xAA :: t : List Nat)).length := by
    rw [h71]
  rw [if_pos hge2]
  have hidx2 : ((0xAA :: t : List Nat)).findIdx? (fun b => b == STREAM_SYNC) = some 0 := rfl
  rw [hidx2]
  show (let r := processBufferAux 71 ((0xAA :: t : List Nat).drop TOUCH_FRAME_SIZE);
    match TouchFrame_from_bytes ((0xAA :: t : List Nat).take TOUCH_FRAME_SIZE) with
    | .ok f => (f :: r.1, r.2)
    | .error _ => r) = _
  rw [show (TOUCH_FRAME_SIZE : Nat) = (0xAA :: t : List Nat).length from h71.symm]
  rw [List.take_length, List.drop_length]
  rw [from_bytes_ok _ h71 hsync]
  rfl

def c7Frame : List Nat := 0xAA :: List.replicate 70 0

set_option maxRecDepth 4000 in
theorem c7_stream_resync_witness :
    TouchFrame_from_bytes c7Frame = .ok (decodeFrame c7Frame) ∧
    processBuffer (0x00 :: 0x00 :: c7Frame) = ([decodeFrame c7Frame], []) :=
  c7_stream_resync c7Frame (by decide) (by decide)

/-! ## Claim C6: truncated chord-record regions -/

theorem parseChordsV7_length (data : List Nat) :
    ∀ (count offset : Nat),
    (parseChordsV7 data offset count).length = min count ((data.length - offset) / 8) := by
  intro count
  induction count with
  | zero => intro offset; simp [parseChordsV7]
  | succ count ih =>
    intro offset
    by_cases h : data.length < offset + 8
    · have hz : (data.length - offset) / 8 = 0 := Nat.div_eq_of_lt (by omega)
      simp [parseChordsV7, if_pos h, hz]
    · have h8 : offset + 8 ≤ data.length := by omega
      have hdiv : (data.length - offset) / 8 = (data.length - (offset + 8)) / 8 + 1 := by
        have hsub : data.length - offset = (data.length - (offset + 8)) + 8 := by omega
        rw [hsub, Nat.add_div_right _ (by norm_num)]
      simp only [parseChordsV7, if_neg h, List.length_cons, ih (offset + 8), hdiv,
        Nat.succ_min_succ]

theorem parseChordsV4_length_le (data : List Nat) :
    ∀ (count offset : Nat),
    (parseChordsV4 data offset count).length ≤ min count ((data.length - offset) / 4) := by
  intro count
  induction count with
  | zero => intro offset; simp [parseChordsV4]
  | succ count ih =>
    intro offset
    by_cases h : data.length < offset + 4
    · simp [parseChordsV4, if_pos h]
    · have h4 : offset + 4 ≤ data.length := by omega
      have hdiv : (data.length - offset) / 4 = (data.length - (offset + 4)) / 4 + 1 := by
        have hsub : data.length - offset = (data.length - (offset + 4)) + 4 := by omega
        rw [hsub, Nat.add_div_right _ (by norm_num)]
      have hih := ih (offset + 4)
      simp only [parseChordsV4, if_neg h]
      by_cases hm : (data.getD (offset + 2) 0 == 0xFF) = true
      · simp only [hm, if_true]
        omega
      · simp only [hm, Bool.false_eq_true, if_false, List.length_cons]
        omega

theorem ConfigV7_parse_ok (data : List Nat) (hlen : 76 ≤ data.length)
    (hm : u16at data 4 = 0x0107 ∨ u16at data 4 = 0x0907) :
    ConfigV7_parse data = .ok
      { version := 7
        sleep_timeout := u16at data 10
        key_repeat_delay := u16at data 12
        mouse_left_action := u32at data 0x40
        mouse_middle_action := u32at data 0x44
        mouse_right_action := u32at data 0x48
        chords := parseChordsV7 data 128 (u16at data 8) } := by
  unfold ConfigV7_parse
  rw [if_neg (by omega), if_neg (by rcases hm with h | h <;> simp [h]), if_neg (by omega)]

theorem ConfigV4_parse_ok (data : List Nat) (hlen : 14 ≤ data.length)
    (hv : data.getD 0 0 = 4) :
    ConfigV4_parse data = .ok
      { version := 4
        sleep_timeout := u16at data 4
        mouse_left_action := u16at data 6
        mouse_middle_action := u16at data 8
        mouse_right_action := u16at data 10
        mouse_accel := data.getD 12 0
        key_repeat_delay := data.getD 13 0
        key_repeat := data.getD 1 0 &&& 0x01 != 0
        direct_key := data.getD 1 0 &&& 0x02 != 0
        joystick_left_click := data.getD 1 0 &&& 0x04 != 0
        disable_bluetooth := data.getD 1 0 &&& 0x08 != 0
        sticky_num := data.getD 1 0 &&& 0x10 != 0
        sticky_shift := data.getD 1 0 &&& 0x80 != 0
        haptic_feedback := false
        chords := parseChordsV4 data 14 (u16at data 2)
        strings := [] } := by
  unfold ConfigV4_parse
  rw [if_neg (by omega), if_neg (by simpa using hv), if_neg (by omega)]

/-- C6 counterexample: a v7 input whose header declares one chord but
whose record region is empty parses successfully to a config with zero
entries instead of raising. -/
def c6Data : List Nat := [0, 0, 0, 0, 0x07, 0x09, 0, 0, 1, 0] ++ List.replicate 118 0

set_option maxRecDepth 4000 in
theorem c6_counterexample :
    u16at c6Data 8 = 1 ∧ c6Data.length = 128 ∧
    (ConfigV7_parse c6Data).map (fun c => c.chords.length) = .ok 0 := by
  refine ⟨by decide, by decide, rfl⟩

/-- C6 (amended): a truncated chord-record region does not raise: with a
valid header, the v7 parser succeeds and returns exactly
min declared-count complete-records entries, and the v4 parser succeeds
and returns at most that many (it additionally skips 0xFF-modifier
records); only header-level faults raise. -/
theorem c6_truncated_tolerated :
    (∀ data : List Nat, 76 ≤ data.length →
      (u16at data 4 = 0x0107 ∨ u16at data 4 = 0x0907) →
      (ConfigV7_parse data).map (fun c => c.chords.length)
        = .ok (min (u16at data 8) ((data.length - 128) / 8))) ∧
    (∀ data : List Nat, 14 ≤ data.length → data.getD 0 0 = 4 →
      (ConfigV4_parse data).toOption.isSome = true ∧
      ((ConfigV4_parse data).toOption.map (fun c => c.chords.length)).getD 0
        ≤ min (u16at data 2) ((data.length - 14) / 4)) := by
  constructor
  · intro data hlen hm
    rw [ConfigV7_parse_ok data hlen hm]
    simp [Except.map, parseChordsV7_length]
  · intro data hlen hv
    rw [ConfigV4_parse_ok data hlen hv]
    have hle := parseChordsV4_length_le data (u16at data 2) 14
    simp only [Except.toOption, Option.isSome_some, Option.map_some, Option.getD_some]
    exact ⟨trivial, hle⟩

/-- A v7 blob declaring two chords with bytes for only one. -/
def c6wData7 : List Nat :=
  [0, 0, 0, 0, 0x07, 0x09, 0, 0, 2, 0] ++ List.replicate 118 0 ++ [1, 0, 0, 0, 2, 0, 4, 0]

/-- A v4 blob declaring two chords with bytes for only one. -/
def c6wData4 : List Nat :=
  [4, 0, 2, 0, 0, 0, 0, 0, 0, 0, 0, 0, 0, 0] ++ [2, 0, 0, 4]

set_option maxRecDepth 4000 in
theorem c6_truncated_tolerated_witness :
    ((ConfigV7_parse c6wData7).map (fun c => c.chords.length)
      = .ok (min (u16at c6wData7 8) ((c6wData7.length - 128) / 8))) ∧
    ((ConfigV4_parse c6wData4).toOption.isSome = true ∧
      ((ConfigV4_parse c6wData4).toOption.map (fun c => c.chords.length)).getD 0
        ≤ min (u16at c6wData4 2) ((c6wData4.length - 14) / 4)) :=
  ⟨c6_truncated_tolerated.1 c6wData7 (by decide) (by decide),
   c6_truncated_tolerated.2 c6wData4 (by decide) (by decide)⟩

/-! ## Claim C5: multi_chars versus is_multi -/

/-- Positional access used to track the index-based updates of the v5
string-table pass. -/
def nthEntry : List ChordEntry → Nat → Option ChordEntry
  | [], _ => none
  | e :: _, 0 => some e
  | _ :: es, n + 1 => nthEntry es n

theorem nthEntry_mem : ∀ (es : List ChordEntry) (j : Nat) (e : ChordEntry),
    nthEntry es j = some e → e ∈ es := by
  intro es
  induction es with
  | nil => intro j e h; cases h
  | cons a t ih =>
    intro j e h
    cases j with
    | zero =>
      have : a = e := by simpa [nthEntry] using h
      exact this ▸ List.mem_cons_self a t
    | succ j => exact List.mem_cons_of_mem a (ih j e h)

theorem mem_nthEntry : ∀ (es : List ChordEntry) (e : ChordEntry),
    e ∈ es → ∃ j, nthEntry es j = some e := by
  intro es
  induction es with
  | nil => intro e h; cases h
  | cons a t ih =>
    intro e h
    rcases List.mem_cons.mp h with rfl | ht
    · exact ⟨0, rfl⟩
    · obtain ⟨j, hj⟩ := ih e ht
      exact ⟨j + 1, hj⟩

theorem parseChordsV5_multi_nil (data : List Nat) :
    ∀ (count offset : Nat) (e : ChordEntry),
    e ∈ parseChordsV5 data offset count → e.multi_chars = [] := by
  intro count
  induction count with
  | zero => intro offset e h; simp [parseChordsV5] at h
  | succ count ih =>
    intro offset e h
    unfold parseChordsV5 at h
    by_cases hl : data.length < offset + 4
    · rw [if_pos hl] at h; cases h
    · rw [if_neg hl] at h
      rcases List.mem_cons.mp h with rfl | ht
      · rfl
      · exact ih (offset + 4) e ht

theorem parseChordsV4_entry (data : List Nat) :
    ∀ (count offset : Nat) (e : ChordEntry),
    e ∈ parseChordsV4 data offset count → e.multi_chars = [] ∧ e.is_multi = false := by
  intro count
  induction count with
  | zero => intro offset e h; simp [parseChordsV4] at h
  | succ count ih =>
    intro offset e h
    unfold parseChordsV4 at h
    by_cases hl : data.length < offset + 4
    · rw [if_pos hl] at h; cases h
    · rw [if_neg hl] at h
      by_cases hm : (data.getD (offset + 2) 0 == 0xFF) = true
      · rw [if_pos hm] at h
        exact ih (offset + 4) e h
      · rw [if_neg hm] at h
        rcases List.mem_cons.mp h with rfl | ht
        · exact ⟨rfl, rfl⟩
        · exact ih (offset + 4) e ht

theorem parseChordsV7_multi_nil (data : List Nat) :
    ∀ (count offset : Nat) (e : ChordEntry),
    e ∈ parseChordsV7 data offset count → e.multi_chars = [] := by
  intro count
  induction count with
  | zero => intro offset e h; simp [parseChordsV7] at h
  | succ count ih =>
    intro offset e h
    unfold parseChordsV7 at h
    by_cases hl : data.length < offset + 8
    · rw [if_pos hl] at h; cases h
    · rw [if_neg hl] at h
      rcases List.mem_cons.mp h with rfl | ht
      · rfl
      · exact ih (offset + 8) e ht

theorem setMulti_nth (ch : List (Nat × Nat)) :
    ∀ (es : List ChordEntry) (ci j : Nat),
    nthEntry (setMulti es ci ch) j
      = if j = ci then (nthEntry es j).map (fun e => { e with multi_chars := ch })
        else nthEntry es j := by
  intro es
  induction es with
  | nil =>
    intro ci j
    simp [setMulti, nthEntry]
  | cons e es ih =>
    intro ci j
    cases ci with
    | zero =>
      cases j with
      | zero => simp [setMulti, nthEntry]
      | succ j => simp [setMulti, nthEntry]
    | succ ci =>
      cases j with
      | zero => simp [setMulti, nthEntry]
      | succ j =>
        simp only [setMulti, nthEntry, ih ci j, Nat.succ.injEq]

theorem multiIndicesAux_mem : ∀ (es : List ChordEntry) (i ci si : Nat),
    (ci, si) ∈ multiIndicesAux i es →
    i ≤ ci ∧ ∃ e, nthEntry es (ci - i) = some e ∧ e.is_multi = true := by
  intro es
  induction es with
  | nil => intro i ci si h; simp [multiIndicesAux] at h
  | cons e es ih =>
    intro i ci si h
    unfold multiIndicesAux at h
    by_cases hm : e.is_multi = true
    · rw [if_pos hm] at h
      rcases List.mem_cons.mp h with heq | ht
      · have hci : ci = i ∧ si = e.hid_key := by
          simpa [Prod.ext_iff] using heq
        obtain ⟨rfl, _⟩ := hci
        exact ⟨le_refl ci, e, by simp [nthEntry], hm⟩
      · obtain ⟨hle, f, hf, hfm⟩ := ih (i + 1) ci si ht
        refine ⟨by omega, f, ?_, hfm⟩
        have hsub : ci - i = (ci - (i + 1)) + 1 := by omega
        rw [hsub]
        exact hf
    · rw [if_neg hm] at h
      obtain ⟨hle, f, hf, hfm⟩ := ih (i + 1) ci si h
      refine ⟨by omega, f, ?_, hfm⟩
      have hsub : ci - i = (ci - (i + 1)) + 1 := by omega
      rw [hsub]
      exact hf

/-- setMulti changes only the multi_chars field at one position. -/
theorem setMulti_is_multi (es : List ChordEntry) (ci : Nat) (ch : List (Nat × Nat)) :
    ∀ j e, nthEntry (setMulti es ci ch) j = some e →
    ∃ f, nthEntry es j = some f ∧ e.is_multi = f.is_multi := by
  intro j e hj
  rw [setMulti_nth] at hj
  by_cases hji : j = ci
  · rw [if_pos hji] at hj
    cases hent : nthEntry es j with
    | none => rw [hent] at hj; cases hj
    | some f =>
      rw [hent] at hj
      refine ⟨f, rfl, ?_⟩
      have hfe : { f with multi_chars := ch } = e := by simpa using hj
      rw [← hfe]
  · rw [if_neg hji] at hj
    exact ⟨e, hj, rfl⟩

/-- Invariant kept by the v5 string-table pass: updates only touch
multi_chars, and only at the recorded positions of multi entries, so a
non-empty multi_chars still implies is_multi afterwards. -/
theorem applyStrings_preserves (data : List Nat) (locs : List Nat) :
    ∀ (ms : List (Nat × Nat)) (entries es2 : List ChordEntry),
    applyStrings data locs ms entries = .ok es2 →
    (∀ j e, nthEntry entries j = some e → e.multi_chars ≠ [] → e.is_multi = true) →
    (∀ ci si, (ci, si) ∈ ms → ∀ e, nthEntry entries ci = some e → e.is_multi = true) →
    (∀ j e, nthEntry es2 j = some e → e.multi_chars ≠ [] → e.is_multi = true) := by
  intro ms
  induction ms with
  | nil =>
    intro entries es2 h hP _
    have : entries = es2 := by simpa [applyStrings] using h
    exact this ▸ hP
  | cons p ms ih =>
    obtain ⟨ci, si⟩ := p
    intro entries es2 h hP hM
    unfold applyStrings at h
    split_ifs at h with h1 h2 h3
    · -- the entry at ci gets its multi_chars replaced
      apply ih _ es2 h
      · intro j e hj hne
        by_cases hji : j = ci
        · obtain ⟨f, hf, him⟩ := setMulti_is_multi entries ci _ j e hj
          rw [him]
          exact hM ci si (List.mem_cons_self _ _) f (hji ▸ hf)
        · rw [setMulti_nth, if_neg hji] at hj
          exact hP j e hj hne
      · intro ci' si' hmem e hj
        by_cases hji : ci' = ci
        · obtain ⟨f, hf, him⟩ := setMulti_is_multi entries ci _ ci' e hj
          rw [him]
          exact hM ci si (List.mem_cons_self _ _) f (hji ▸ hf)
        · rw [setMulti_nth, if_neg hji] at hj
          exact hM ci' si' (List.mem_cons_of_mem _ hmem) e hj
    all_goals first
      | simp at h
      | exact ih entries es2 h hP (fun ci' si' hmem => hM ci' si' (List.mem_cons_of_mem _ hmem))

theorem v5Entries_multi (data : List Nat) (es2 : List ChordEntry)
    (h : v5Entries data = .ok es2) :
    ∀ e ∈ es2, e.multi_chars ≠ [] → e.is_multi = true := by
  have hP : ∀ j e, nthEntry (parseChordsV5 data 18 (u16at data 2)) j = some e →
      e.multi_chars ≠ [] → e.is_multi = true := by
    intro j e hj hne
    exact absurd (parseChordsV5_multi_nil data (u16at data 2) 18 e (nthEntry_mem _ j e hj)) hne
  have hM : ∀ ci si, (ci, si) ∈ multiIndices (parseChordsV5 data 18 (u16at data 2)) →
      ∀ e, nthEntry (parseChordsV5 data 18 (u16at data 2)) ci = some e →
      e.is_multi = true := by
    intro ci si hmem e hj
    obtain ⟨-, f, hf, hfm⟩ := multiIndicesAux_mem _ 0 ci si hmem
    have : nthEntry (parseChordsV5 data 18 (u16at data 2)) ci = some f := by
      simpa using hf
    rw [hj] at this
    have hef : e = f := by simpa using this
    exact hef ▸ hfm
  unfold v5Entries at h
  by_cases hms : (multiIndices (parseChordsV5 data 18 (u16at data 2))).isEmpty = true
  · rw [if_pos hms] at h
    have hes : parseChordsV5 data 18 (u16at data 2) = es2 := by simpa using h
    intro e he hne
    exact absurd (parseChordsV5_multi_nil data (u16at data 2) 18 e (hes ▸ he)) hne
  · rw [if_neg hms] at h
    intro e he hne
    obtain ⟨j, hj⟩ := mem_nthEntry es2 e he
    exact applyStrings_preserves data _ _ _ es2 h hP hM j e hj hne

/-- C5 counterexample: a v7 blob with a single record whose modifier is
the multi-char sentinel 0x02FF parses to an entry with is_multi true and
an empty multi_chars list, so non-empty multi_chars is not equivalent to
is_multi in parsed configs. -/
def c5Data : List Nat :=
  [0, 0, 0, 0, 0x07, 0x09, 0, 0, 1, 0] ++ List.replicate 118 0
    ++ [2, 0, 0, 0, 0xFF, 0x02, 4, 0]

set_option maxRecDepth 4000 in
theorem c5_counterexample :
    (ConfigV7_parse c5Data).map (fun c => c.chords.map (fun e => (e.is_multi, e.multi_chars)))
      = .ok [(true, [])] := rfl

/-- C5 (amended): in configs produced by the three parsers, a non-empty
multi_chars implies is_multi; the converse fails: the v4 parser produces
neither, the v7 parser never fills multi_chars even for multi entries,
and the v5 parser can leave a multi entry's list empty. -/
theorem c5_multi_only_if :
    (∀ (data : List Nat) (cfg : TwiddlerConfig), ConfigV4_parse data = .ok cfg →
      ∀ e ∈ cfg.chords, e.multi_chars = [] ∧ e.is_multi = false) ∧
    (∀ (data : List Nat) (cfg : TwiddlerConfig), ConfigV7_parse data = .ok cfg →
      ∀ e ∈ cfg.chords, e.multi_chars = []) ∧
    (∀ (data : List Nat) (cfg : TwiddlerConfig), ConfigV5_parse data = .ok cfg →
      ∀ e ∈ cfg.chords, e.multi_chars ≠ [] → e.is_multi = true) := by
  refine ⟨?_, ?_, ?_⟩
  · intro data cfg h e he
    unfold ConfigV4_parse at h
    split_ifs at h
    have hc : cfg.chords = parseChordsV4 data 14 (u16at data 2) := by
      injection h with hcfg
      rw [← hcfg]
    exact parseChordsV4_entry data (u16at data 2) 14 e (hc ▸ he)
  · intro data cfg h e he
    unfold ConfigV7_parse at h
    split_ifs at h
    have hc : cfg.chords = parseChordsV7 data 128 (u16at data 8) := by
      injection h with hcfg
      rw [← hcfg]
    exact parseChordsV7_multi_nil data (u16at data 8) 128 e (hc ▸ he)
  · intro data cfg h e he hne
    unfold ConfigV5_parse at h
    split_ifs at h
    cases hve : v5Entries data with
    | error err => rw [hve] at h; cases h
    | ok es2 =>
      rw [hve] at h
      have hc : cfg.chords = es2 := by
        have hcfg : mkV5Config data es2 = cfg := by simpa [Except.map] using h
        rw [← hcfg]
        rfl
      exact v5Entries_multi data es2 hve e (hc ▸ he) hne

def c5wEntry4 : ChordEntry := { chord := 2, hid_key := 4, modifier := 0 }
def c5wEntry7 : ChordEntry :=
  { chord := 2, hid_key := 4, modifier := 0x02FF, is_multi := true }
def c5wEntry5 : ChordEntry :=
  { chord := 2, hid_key := 0, modifier := 0xFF, is_multi := true,
    multi_chars := [(2, 4), (2, 5)] }

def c5wCfg4 : TwiddlerConfig :=
  { version := 4, sleep_timeout := 0, key_repeat_delay := 0, mouse_accel := 0,
    joystick_left_click := false, mouse_left_action := 0, mouse_middle_action := 0,
    mouse_right_action := 0, chords := [c5wEntry4] }

def c5wCfg7 : TwiddlerConfig :=
  { version := 7, sleep_timeout := 0, key_repeat_delay := 0,
    mouse_left_action := 0, mouse_middle_action := 0, mouse_right_action := 0,
    chords := [c5wEntry7] }

def c5wData5 : List Nat :=
  [5, 0, 1, 0, 0, 0, 0, 0, 0, 0, 0, 0, 0, 0, 0, 0, 0, 0]
    ++ [2, 0, 0xFF, 0] ++ [26, 0, 0, 0] ++ [6, 0] ++ [2, 4, 2, 5]

def c5wCfg5 : TwiddlerConfig :=
  { version := 5, sleep_timeout := 0, key_repeat_delay := 0, mouse_accel := 0,
    joystick_left_click := false, mouse_left_action := 0, mouse_middle_action := 0,
    mouse_right_action := 0, chords := [c5wEntry5] }

set_option maxRecDepth 4000 in
theorem c5_multi_only_if_witness :
    (c5wEntry4.multi_chars = [] ∧ c5wEntry4.is_multi = false) ∧
    c5wEntry7.multi_chars = [] ∧
    c5wEntry5.is_multi = true :=
  ⟨c5_multi_only_if.1 c6wData4 c5wCfg4 rfl c5wEntry4 (by decide),
   c5_multi_only_if.2.1 c5Data c5wCfg7 rfl c5wEntry7 (by decide),
   c5_multi_only_if.2.2 c5wData5 c5wCfg5 rfl c5wEntry5 (by decide) (by decide)⟩

/-! ## Claim C1: v7 round-trip -/

theorem u16at_app (pre l2 : List Nat) (k : Nat) :
    u16at (pre ++ l2) (pre.length + k) = u16at l2 k := by
  unfold u16at
  rw [show pre.length + k + 1 = pre.length + (k + 1) from by omega]
  rw [getD_app_right, getD_app_right]

theorem u32at_app (pre l2 : List Nat) (k : Nat) :
    u32at (pre ++ l2) (pre.length + k) = u32at l2 k := by
  unfold u32at
  rw [show pre.length + k + 1 = pre.length + (k + 1) from by omega,
    show pre.length + k + 2 = pre.length + (k + 2) from by omega,
    show pre.length + k + 3 = pre.length + (k + 3) from by omega]
  rw [getD_app_right, getD_app_right, getD_app_right, getD_app_right]

theorem u32at_app0 (pre l2 : List Nat) :
    u32at (pre ++ l2) pre.length = u32at l2 0 := by
  have h := u32at_app pre l2 0
  simpa using h

/-- The (mask, hid_key, is_shifted) triple the round-trip property talks
about. -/
def entryTriple (e : ChordEntry) : Nat × Nat × Bool :=
  (e.chord, e.hid_key, e.is_shifted)

/-- What one chord entry becomes after a v7 serialize followed by a v7
parse. -/
def reparsedV7 (e : ChordEntry) : ChordEntry :=
  { chord := e.chord
    hid_key := e.hid_key
    modifier := encodeModV7 e
    is_shifted := encodeModV7 e == 0x0220 || encodeModV7 e == 0x2002
    is_multi := encodeModV7 e == 0x02FF
    multi_chars := [] }

theorem encodeModV7_lt (e : ChordEntry) (h : EntryWF e) : encodeModV7 e < 65536 := by
  obtain ⟨-, -, hmod, -, -⟩ := h
  unfold encodeModV7
  split_ifs <;> omega

theorem encodeModV7_shift (e : ChordEntry) (h : EntryWF e) :
    ((encodeModV7 e == 0x0220) || (encodeModV7 e == 0x2002)) = e.is_shifted := by
  obtain ⟨-, -, -, hs, hm⟩ := h
  unfold encodeModV7
  split_ifs with h1 h2 h3
  · obtain ⟨hne0, hne2, hne220, hne2ff⟩ := h1
    cases hsh : e.is_shifted
    · have hnot : ¬(e.modifier = 0x0220 ∨ e.modifier = 0x2002) := by
        intro hp
        have hft := hs.mpr hp
        rw [hsh] at hft
        simp at hft
      push_neg at hnot
      obtain ⟨h220, h2002⟩ := hnot
      simp [h220, h2002]
    · have hp := hs.mp (by rw [hsh])
      rcases hp with h220 | h2002
      · exact absurd h220 hne220
      · simp [h2002]
  · have hmod := hm.mp h2
    cases hsh : e.is_shifted
    · rfl
    · have hp := hs.mp (by rw [hsh])
      rw [hmod] at hp
      rcases hp with hq | hq <;> omega
  · rw [h3]
    decide
  · have hsh : e.is_shifted = false := by
      cases hq : e.is_shifted
      · rfl
      · exact absurd hq h3
    rw [hsh]
    decide

theorem reparsed_triple (e : ChordEntry) (h : EntryWF e) :
    entryTriple (reparsedV7 e) = entryTriple e := by
  show (e.chord, e.hid_key, (encodeModV7 e == 0x0220 || encodeModV7 e == 0x2002))
    = (e.chord, e.hid_key, e.is_shifted)
  rw [encodeModV7_shift e h]

theorem encodeChordsV7_length : ∀ es : List ChordEntry,
    (encodeChordsV7 es).length = 8 * es.length := by
  intro es
  induction es with
  | nil => rfl
  | cons e es ih =>
    show (encodeEntryV7 e ++ encodeChordsV7 es).length = _
    rw [List.length_append, ih, show (encodeEntryV7 e).length = 8 from rfl,
      List.length_cons]
    omega

theorem build_length (c : TwiddlerConfig) :
    (ConfigV7_build c).length = 128 + 8 * c.chords.length := by
  show (headerV7 c ++ encodeChordsV7 c.chords).length = _
  rw [List.length_append, show (headerV7 c).length = 128 from rfl,
    encodeChordsV7_length]

/-- Parsing the record region written by the serializer recovers each
entry up to modifier canonicalization. -/
theorem parseChordsV7_encode : ∀ (es : List ChordEntry) (pre : List Nat),
    (∀ e ∈ es, EntryWF e) →
    parseChordsV7 (pre ++ encodeChordsV7 es) pre.length es.length
      = es.map reparsedV7 := by
  intro es
  induction es with
  | nil => intro pre _; rfl
  | cons e es ih =>
    intro pre hwf
    have hwfe : EntryWF e := hwf e (List.mem_cons_self _ _)
    have hlenc : (pre ++ encodeChordsV7 (e :: es)).length
        = pre.length + 8 + (encodeChordsV7 es).length := by
      show (pre ++ (encodeEntryV7 e ++ encodeChordsV7 es)).length = _
      rw [List.length_append, List.length_append,
        show (encodeEntryV7 e).length = 8 from rfl]
      omega
    show parseChordsV7 (pre ++ encodeChordsV7 (e :: es)) pre.length (es.length + 1) = _
    unfold parseChordsV7
    rw [if_neg (by omega)]
    have hEnc : encodeChordsV7 (e :: es) = encodeEntryV7 e ++ encodeChordsV7 es := rfl
    have r0 : u32at (pre ++ encodeChordsV7 (e :: es)) pre.length = e.chord := by
      rw [hEnc, u32at_app0]
      have hr : u32at (encodeEntryV7 e ++ encodeChordsV7 es) 0
          = e.chord % 256 + 256 * (e.chord / 256 % 256) + 65536 * (e.chord / 65536 % 256)
            + 16777216 * (e.chord / 16777216 % 256) := rfl
      rw [hr]
      have hc := hwfe.1
      omega
    have r4 : u16at (pre ++ encodeChordsV7 (e :: es)) (pre.length + 4) = encodeModV7 e := by
      rw [hEnc, u16at_app]
      have hr : u16at (encodeEntryV7 e ++ encodeChordsV7 es) 4
          = encodeModV7 e % 256 + 256 * (encodeModV7 e / 256 % 256) := rfl
      rw [hr]
      have hlt := encodeModV7_lt e hwfe
      omega
    have r6 : u16at (pre ++ encodeChordsV7 (e :: es)) (pre.length + 6) = e.hid_key := by
      rw [hEnc, u16at_app]
      have hr : u16at (encodeEntryV7 e ++ encodeChordsV7 es) 6
          = e.hid_key % 256 + 256 * (e.hid_key / 256 % 256) := rfl
      rw [hr]
      have hh := hwfe.2.1
      omega
    rw [r0, r4, r6]
    show reparsedV7 e
        :: parseChordsV7 (pre ++ encodeChordsV7 (e :: es)) (pre.length + 8) es.length
      = reparsedV7 e :: es.map reparsedV7
    congr 1
    have hassoc : pre ++ encodeChordsV7 (e :: es)
        = (pre ++ encodeEntryV7 e) ++ encodeChordsV7 es := by
      rw [hEnc, List.append_assoc]
    have hlen8 : pre.length + 8 = (pre ++ encodeEntryV7 e).length := by
      rw [List.length_append, show (encodeEntryV7 e).length = 8 from rfl]
    rw [hassoc, hlen8]
    exact ih (pre ++ encodeEntryV7 e) (fun f hf => hwf f (List.mem_cons_of_mem _ hf))

set_option maxRecDepth 8000 in
set_option maxHeartbeats 1600000 in
/-- C1 (amended): for every well-formed config, parsing the v7 serializer
output recovers the same ordered (mask, hid_key, is_shifted) triples and
the same sleep_timeout, key_repeat_delay and three mouse-button actions;
mouse_accel is not recovered (the v7 parser never reads it, leaving the
dataclass default). -/
theorem c1_roundtrip_amended (c : TwiddlerConfig) (h : ConfigWF c) :
    (ConfigV7_parse (ConfigV7_build c)).map
        (fun c2 => (c2.chords.map entryTriple, c2.sleep_timeout, c2.key_repeat_delay,
          c2.mouse_left_action, c2.mouse_middle_action, c2.mouse_right_action))
      = .ok (c.chords.map entryTriple, c.sleep_timeout, c.key_repeat_delay,
          c.mouse_left_action, c.mouse_middle_action, c.mouse_right_action) := by
  obtain ⟨hn, hsl, hkr, hacc, hml, hmm, hmr, hwf⟩ := h
  have hlen := build_length c
  have r4 : u16at (ConfigV7_build c) 4 = 0x0907 := rfl
  have r8 : u16at (ConfigV7_build c) 8 = c.chords.length := by
    have hr : u16at (ConfigV7_build c) 8
        = c.chords.length % 256 + 256 * (c.chords.length / 256 % 256) := rfl
    omega
  have r10 : u16at (ConfigV7_build c) 10 = c.sleep_timeout := by
    have hr : u16at (ConfigV7_build c) 10
        = c.sleep_timeout % 256 + 256 * (c.sleep_timeout / 256 % 256) := rfl
    omega
  have r12 : u16at (ConfigV7_build c) 12 = c.key_repeat_delay := by
    have hr : u16at (ConfigV7_build c) 12
        = c.key_repeat_delay % 256 + 256 * (c.key_repeat_delay / 256 % 256) := rfl
    omega
  have r64 : u32at (ConfigV7_build c) 64 = c.mouse_left_action := by
    have hr : u32at (ConfigV7_build c) 64
        = c.mouse_left_action % 256 + 256 * (c.mouse_left_action / 256 % 256)
          + 65536 * (c.mouse_left_action / 65536 % 256)
          + 16777216 * (c.mouse_left_action / 16777216 % 256) := rfl
    omega
  have r68 : u32at (ConfigV7_build c) 68 = c.mouse_middle_action := by
    have hr : u32at (ConfigV7_build c) 68
        = c.mouse_middle_action % 256 + 256 * (c.mouse_middle_action / 256 % 256)
          + 65536 * (c.mouse_middle_action / 65536 % 256)
          + 16777216 * (c.mouse_middle_action / 16777216 % 256) := rfl
    omega
  have r72 : u32at (ConfigV7_build c) 72 = c.mouse_right_action := by
    have hr : u32at (ConfigV7_build c) 72
        = c.mouse_right_action % 256 + 256 * (c.mouse_right_action / 256 % 256)
          + 65536 * (c.mouse_right_action / 65536 % 256)
          + 16777216 * (c.mouse_right_action / 16777216 % 256) := rfl
    omega
  have hrec : parseChordsV7 (ConfigV7_build c) 128 (u16at (ConfigV7_build c) 8)
      = c.chords.map reparsedV7 := by
    rw [r8]
    show parseChordsV7 (headerV7 c ++ encodeChordsV7 c.chords) 128 c.chords.length = _
    rw [show (128 : Nat) = (headerV7 c).length from rfl]
    exact parseChordsV7_encode c.chords (headerV7 c) hwf
  rw [ConfigV7_parse_ok (ConfigV7_build c) (by omega) (Or.inr r4)]
  show Except.ok
      ((parseChordsV7 (ConfigV7_build c) 128 (u16at (ConfigV7_build c) 8)).map entryTriple,
        u16at (ConfigV7_build c) 10, u16at (ConfigV7_build c) 12,
        u32at (ConfigV7_build c) 64, u32at (ConfigV7_build c) 68,
        u32at (ConfigV7_build c) 72)
    = _
  rw [hrec, r10, r12, r64, r68, r72, List.map_map]
  have hmap : c.chords.map (entryTriple ∘ reparsedV7) = c.chords.map entryTriple :=
    List.map_congr_left (fun e he => reparsed_triple e (hwf e he))
  rw [hmap]

def c1wCfg : TwiddlerConfig :=
  { sleep_timeout := 5000, key_repeat_delay := 200,
    chords := [{ chord := 2, hid_key := 4, modifier := 2 },
      { chord := 0x1002, hid_key := 0, modifier := 0x0701 },
      { chord := 6, hid_key := 8, modifier := 0x0220, is_shifted := true }] }

set_option maxRecDepth 8000 in
theorem c1_roundtrip_witness :
    (ConfigV7_parse (ConfigV7_build c1wCfg)).map
        (fun c2 => (c2.chords.map entryTriple, c2.sleep_timeout, c2.key_repeat_delay,
          c2.mouse_left_action, c2.mouse_middle_action, c2.mouse_right_action))
      = .ok (c1wCfg.chords.map entryTriple, c1wCfg.sleep_timeout, c1wCfg.key_repeat_delay,
          c1wCfg.mouse_left_action, c1wCfg.mouse_middle_action, c1wCfg.mouse_right_action) :=
  c1_roundtrip_amended c1wCfg (by decide)

/-- C1 counterexample: a well-formed config whose mouse_accel is 11
round-trips to mouse_accel 10 (the dataclass default): the serializer
writes the byte at 0x50 but the parser never reads it. -/
def c1cCfg : TwiddlerConfig := { mouse_accel := 11 }

set_option maxRecDepth 8000 in
theorem c1_counterexample :
    ConfigWF c1cCfg ∧ c1cCfg.mouse_accel = 11 ∧
    (ConfigV7_parse (ConfigV7_build c1cCfg)).map TwiddlerConfig.mouse_accel
      = .ok 10 := by
  refine ⟨by decide, rfl, rfl⟩

end NChorder
